import Mathlib

/-!
Verification of the TrancheReady risk-scoring and pattern-detection engine
(`server.js`, with `lib/riskEngine.js` as a sibling revision of the same code).

The engine is embedded shallowly:

* JS strings are Lean `String`s (the engine only ever lowercases, uppercases,
  trims, splits and substring-tests ASCII data, where Lean's `Char.toLower` /
  `Char.toUpper` agree with JS).
* A JS number produced by `toNum` is modelled as `Option Rat`: `none` stands
  for `NaN`, and every threshold comparison against `NaN` is `false`, exactly
  as in JS (`amtGe` / `amtLt`).
* A JS `Date` that parsed successfully is modelled as `JSDate`, carrying the
  fields the engine reads: `getFullYear` (`year`), `getMonth` (`month`,
  0-based) and the epoch-millisecond value (`ms`, used by date subtraction
  and the sort comparator).  `parseDate`'s result is `Option JSDate`
  (`none` = invalid date).
* `monthsAgo` returns `ExtInt`: `fin n` for an ordinary number, `inf` for
  the JS `Infinity` sentinel returned on invalid input.
-/

/-- Whitespace recognised by `String.prototype.trim` (ASCII subset):
space, tab, LF, CR, VT, FF. -/
def wsChar (c : Char) : Bool :=
  c.toNat = 32 || c.toNat = 9 || c.toNat = 10 || c.toNat = 13 ||
  c.toNat = 11 || c.toNat = 12

/-- Drop leading whitespace. -/
def trimL (l : List Char) : List Char := l.dropWhile wsChar

/-- Drop trailing whitespace. -/
def trimR (l : List Char) : List Char := (l.reverse.dropWhile wsChar).reverse

/-- JS `String.prototype.trim`. -/
def jsTrim (s : String) : String := ⟨trimR (trimL s.data)⟩

/-- ASCII lower-casing of one char (what `toLowerCase` does on the ASCII
data the engine handles). -/
def lowChar (c : Char) : Char :=
  if 65 ≤ c.toNat && c.toNat ≤ 90 then Char.ofNat (c.toNat + 32) else c

/-- ASCII upper-casing of one char. -/
def upChar (c : Char) : Char :=
  if 97 ≤ c.toNat && c.toNat ≤ 122 then Char.ofNat (c.toNat - 32) else c

/-- JS `String.prototype.toLowerCase` (ASCII). -/
def asciiLower (s : String) : String := ⟨s.data.map lowChar⟩

/-- JS `String.prototype.toUpperCase` (ASCII). -/
def asciiUpper (s : String) : String := ⟨s.data.map upChar⟩

/-- JS `String.prototype.startsWith`. -/
def strStarts (s pre : String) : Bool := pre.data.isPrefixOf s.data

/-- JS `String.prototype.slice(n)` / the tail left by stripping an
`n`-char matched head. -/
def strDrop (s : String) (n : Nat) : String := ⟨s.data.drop n⟩

/-- JS `String.prototype.split(",")`: comma-separated fields, empty
fields preserved. -/
def splitCommaAux : List Char → List Char → List String
  | [], acc => [⟨acc.reverse⟩]
  | a :: t, acc =>
    if a.toNat = 44 then ⟨acc.reverse⟩ :: splitCommaAux t []
    else splitCommaAux t (a :: acc)

def splitComma (s : String) : List String := splitCommaAux s.data []

/-- JS `String.prototype.includes` on char lists:
`containsList sub l = true` iff `sub` occurs contiguously in `l`. -/
def containsList (sub : List Char) : List Char → Bool
  | [] => sub.isEmpty
  | a :: t => sub.isPrefixOf (a :: t) || containsList sub t

/-- JS `s.includes(sub)`. -/
def containsStr (s sub : String) : Bool := containsList sub.data s.data

/-- JS `(x ?? "").toString().trim().toUpperCase()` — the engine's `toUpper`
helper, over a possibly-absent field. -/
def jsUpper (x : Option String) : String := asciiUpper (jsTrim (x.getD ""))

/-- The engine's `toBoolYN`: `["Y","YES","TRUE"].includes(toUpper(x))`. -/
def toBoolYN (x : Option String) : Bool :=
  ["Y", "YES", "TRUE"].contains (jsUpper x)

/-- A JS number that went through `toNum`; `none` is `NaN`
(missing field, or a string that does not parse as a number). -/
abbrev JSNum := Option Rat

/-- `x >= q` in JS: `NaN >= q` is `false`. -/
def amtGe (a : JSNum) (q : Rat) : Bool :=
  match a with
  | some x => decide (q ≤ x)
  | none => false

/-- `x < q` in JS: `NaN < q` is `false`. -/
def amtLt (a : JSNum) (q : Rat) : Bool :=
  match a with
  | some x => decide (x < q)
  | none => false

/-- A successfully parsed JS `Date`: the fields the engine reads.
`month` is 0-based as in `Date.prototype.getMonth`; `ms` is the epoch
millisecond value used by `-` on dates. -/
structure JSDate where
  year : Int
  month : Int
  ms : Int
deriving DecidableEq, Repr

/-- JS number extended with the `Infinity` sentinel that `monthsAgo`
returns for invalid dates. -/
inductive ExtInt where
  | fin (n : Int)
  | inf
deriving DecidableEq, Repr

/-- `v <= m` for an `ExtInt` `v`: `Infinity <= m` is `false`. -/
def ExtInt.leInt : ExtInt → Int → Bool
  | .fin n, m => decide (n ≤ m)
  | .inf, _ => false

/-- `v > m` for an `ExtInt` `v`: `Infinity > m` is `true`. -/
def ExtInt.gtInt : ExtInt → Int → Bool
  | .fin n, m => decide (m < n)
  | .inf, _ => true

-- Threshold constants from the source.
def CASH_STRUCTURING_MIN : Rat := 9600
def CASH_STRUCTURING_MAX : Rat := 10000
def LARGE_DOMESTIC : Rat := 100000
def LOOKBACK_MONTHS : Int := 18
def MS_PER_DAY : Int := 86400000

def HIGH_RISK_COUNTRIES : List String := ["RU", "IR"]
def MED_RISK_COUNTRIES : List String := ["CN", "HK", "AE", "IN"]
def HIGH_RISK_CORRIDORS : List String := ["RU", "IR", "CN", "HK", "AE", "IN"]

/-- `monthsAgo(a, b)` on already-parsed dates (the source coerces its
arguments through `parseDate` first; detectors always pass parsed dates):
`(b.getFullYear()-a.getFullYear())*12 + (b.getMonth()-a.getMonth())`,
or `Infinity` when either date is invalid. -/
def monthsAgo (a b : Option JSDate) : ExtInt :=
  match a, b with
  | some a, some b => .fin ((b.year - a.year) * 12 + (b.month - a.month))
  | _, _ => .inf

/-- A transaction row after normalization, restricted to the fields the
detectors read.  `Date` is the `parseDate` image of the raw string
(`none` = missing or unparseable); `Amount` is the `toNum` image. -/
structure Txn where
  TxType : Option String := none
  Date : Option JSDate := none
  Amount : JSNum := none
  CounterpartyCountry : Option String := none
  Currency : Option String := none
deriving DecidableEq, Repr

/-- `(t.Type || "").toLowerCase().includes(sub)`. -/
def typeHas (t : Txn) (sub : String) : Bool :=
  containsStr (asciiLower (t.TxType.getD "")) sub

-- ---------------------------------------------------------------------------
-- detectStructuring
-- ---------------------------------------------------------------------------

/-- The mapped record `{ d: parseDate(t.Date), amt: toNum(t.Amount) }`. -/
abbrev CashRec := Option JSDate × JSNum

/-- Sort key for the comparator `(a, b) => a.d - b.d` (epoch ms). -/
def msKey (p : CashRec) : Int :=
  match p.1 with
  | some d => d.ms
  | none => 0

/-- Stable insertion used by `sortByMs`: an element is placed before the
first strictly later one, preserving the relative order of ties — the
behaviour of JS's stable `Array.prototype.sort` with comparator
`a.d - b.d`. -/
def insertByMs (a : CashRec) : List CashRec → List CashRec
  | [] => [a]
  | b :: t => if msKey a < msKey b then a :: b :: t else b :: insertByMs a t

/-- Stable sort ascending by date. -/
def sortByMs (l : List CashRec) : List CashRec :=
  l.foldl (fun acc x => insertByMs x acc) []

/-- The filter applied after mapping:
`t.d && monthsAgo(t.d, now) <= LOOKBACK_MONTHS
      && t.amt >= CASH_STRUCTURING_MIN && t.amt < CASH_STRUCTURING_MAX`. -/
def structWindowPred (now : JSDate) (p : CashRec) : Bool :=
  p.1.isSome && (monthsAgo p.1 (some now)).leInt LOOKBACK_MONTHS &&
    amtGe p.2 CASH_STRUCTURING_MIN && amtLt p.2 CASH_STRUCTURING_MAX

/-- The `cash` list of `detectStructuring`: filter by type substring, map to
`{d, amt}`, filter to the near-threshold in-window records, sort by date. -/
def structCash (txList : List Txn) (now : JSDate) : List CashRec :=
  sortByMs
    (((txList.filter (fun t => typeHas t "cash deposit")).map
        (fun t => (t.Date, t.Amount))).filter (structWindowPred now))

/-- `cur.d - prev.d <= 7 * MS_PER_DAY`: the run-extension test between a
record and the immediately preceding one in the sorted array. -/
def structClose (prev cur : CashRec) : Bool :=
  decide (msKey cur - msKey prev ≤ 7 * MS_PER_DAY)

/-- The run-grouping loop of `detectStructuring`: split a list into maximal
runs in which each element is `close` to the immediately preceding one. -/
def chop (close : α → α → Bool) : List α → List (List α)
  | [] => []
  | [a] => [[a]]
  | a :: b :: t =>
    match chop close (b :: t) with
    | [] => [[a]]
    | r :: rs => if close a b then (a :: r) :: rs else [a] :: r :: rs

/-- `Math.max(...runs.map(r => r.length))` (the list is never empty at the
call site). -/
def maxNat (l : List Nat) : Nat := l.foldl max 0

/-- Result of `detectStructuring`; the early return `{hit: false}` leaves
`maxRun` and `count` absent (`none`). -/
structure StructResult where
  hit : Bool
  maxRun : Option Nat := none
  count : Option Nat := none
deriving DecidableEq, Repr

/-- `detectStructuring(txList, now)` from the source. -/
def detectStructuring (txList : List Txn) (now : JSDate) : StructResult :=
  let cash := structCash txList now
  if cash.length < 4 then { hit := false }
  else
    let mr := maxNat ((chop structClose cash).map List.length)
    { hit := decide (4 ≤ mr), maxRun := some mr, count := some cash.length }

-- ---------------------------------------------------------------------------
-- detectCorridors
-- ---------------------------------------------------------------------------

/-- The mapped record `{ country, amt, d, ccy }` of `detectCorridors`. -/
structure CorridorView where
  country : String
  amt : JSNum
  d : Option JSDate
  ccy : String
deriving DecidableEq, Repr

def corridorView (t : Txn) : CorridorView :=
  { country := jsUpper t.CounterpartyCountry, amt := t.Amount,
    d := t.Date, ccy := jsUpper t.Currency }

/-- The in-window filter `t.d && monthsAgo(t.d, now) <= LOOKBACK_MONTHS`. -/
def corridorWindowPred (now : JSDate) (v : CorridorView) : Bool :=
  v.d.isSome && (monthsAgo v.d (some now)).leInt LOOKBACK_MONTHS

structure CorrResult where
  hit : Bool
  total : Nat
  big : Nat
deriving DecidableEq, Repr

/-- `detectCorridors(txList, now)` from the source. -/
def detectCorridors (txList : List Txn) (now : JSDate) : CorrResult :=
  let intl :=
    ((txList.filter (fun t => typeHas t "international")).map
        corridorView).filter (corridorWindowPred now)
  let risky := intl.filter (fun v => HIGH_RISK_CORRIDORS.contains v.country)
  let total := risky.length
  let big := (risky.filter (fun v => amtGe v.amt 20000)).length
  { hit := decide (2 ≤ total) && decide (1 ≤ big), total := total, big := big }

-- ---------------------------------------------------------------------------
-- detectLargeDomestic
-- ---------------------------------------------------------------------------

/-- The mapped record `{ amt, d }` of `detectLargeDomestic`. -/
abbrev DomRec := JSNum × Option JSDate

/-- `t.d && monthsAgo(t.d, now) <= LOOKBACK_MONTHS && t.amt >= LARGE_DOMESTIC`. -/
def domWindowPred (now : JSDate) (p : DomRec) : Bool :=
  p.2.isSome && (monthsAgo p.2 (some now)).leInt LOOKBACK_MONTHS &&
    amtGe p.1 LARGE_DOMESTIC

structure DomResult where
  hit : Bool
  count : Nat
deriving DecidableEq, Repr

/-- `detectLargeDomestic(txList, now)` from the source. -/
def detectLargeDomestic (txList : List Txn) (now : JSDate) : DomResult :=
  let dom :=
    ((txList.filter (fun t => typeHas t "domestic")).map
        (fun t => (t.Amount, t.Date))).filter (domWindowPred now)
  { hit := decide (0 < dom.length), count := dom.length }

-- ---------------------------------------------------------------------------
-- scoreClient
-- ---------------------------------------------------------------------------

/-- Classification of a raw date-string field of a client row, capturing
everything `scoreClient` observes about it: JS truthiness (for the `||`
between `LastKYCReview` and `OnboardDate`) and the `parseDate` image.
`empty` = missing or `""` (falsy); `bad` = non-empty but unparseable
(truthy, parses to `null`); `ok d` = parses to the date `d`. -/
inductive DateStr where
  | empty
  | bad
  | ok (d : JSDate)
deriving DecidableEq, Repr

/-- JS truthiness of the raw string. -/
def DateStr.truthy : DateStr → Bool
  | .empty => false
  | _ => true

/-- `parseDate` on the raw string. -/
def DateStr.parse : DateStr → Option JSDate
  | .ok d => some d
  | _ => none

/-- JS `a || b` on the two raw date strings. -/
def dateOr (a b : DateStr) : DateStr := if a.truthy then a else b

/-- A client row after normalization, restricted to the fields
`scoreClient` reads. -/
structure Client where
  PEP : Option String := none
  SanctionsMatch : Option String := none
  LastKYCReview : DateStr := .empty
  OnboardDate : DateStr := .empty
  ResidencyStatus : Option String := none
  ServicesUsed : Option String := none
  DeliveryChannel : Option String := none
  RiskCountryExposure : Option String := none
  Country : Option String := none
  KYCStatus : Option String := none
deriving DecidableEq, Repr

/-- One scoring rule's contribution: added points and pushed reasons. -/
abbrev RulePart := Int × List String

def pepRule (c : Client) : RulePart :=
  if toBoolYN c.PEP then (30, ["PEP flagged (+30)"]) else (0, [])

def sanctionsRule (c : Client) : RulePart :=
  if toBoolYN c.SanctionsMatch then (40, ["Sanctions match (+40)"]) else (0, [])

/-- `const last = parseDate(client.LastKYCReview || client.OnboardDate);
if (last && monthsAgo(last, now) > 24) { score += 6; ... }` -/
def kycStaleRule (c : Client) (now : JSDate) : RulePart :=
  let last := (dateOr c.LastKYCReview c.OnboardDate).parse
  if last.isSome && (monthsAgo last (some now)).gtInt 24 then
    (6, ["KYC review stale (>24mo) (+6)"])
  else (0, [])

def residencyRule (c : Client) : RulePart :=
  if jsUpper c.ResidencyStatus = "NON-RESIDENT" then
    (5, ["Non-resident (+5)"])
  else (0, [])

def remittanceRule (c : Client) : RulePart :=
  if containsStr (asciiLower (c.ServicesUsed.getD "")) "remittance" then
    (10, ["Uses remittance (+10)"])
  else (0, [])

def propertyRule (c : Client) : RulePart :=
  if containsStr (asciiLower (c.ServicesUsed.getD "")) "property" then
    (5, ["Property settlements (+5)"])
  else (0, [])

def channelRule (c : Client) : RulePart :=
  let ch := asciiLower (c.DeliveryChannel.getD "")
  if containsStr ch "mixed" || containsStr ch "broker" || containsStr ch "in-branch" then
    (4, ["Higher-risk delivery channel (+4)"])
  else (0, [])

/-- `tag.replace(/^HighRisk:|^MedRisk:/i, "")`: strip one optional
case-insensitive leading tier marker. -/
def stripRiskTag (s : String) : String :=
  if strStarts (asciiLower s) "highrisk:" then strDrop s 9
  else if strStarts (asciiLower s) "medrisk:" then strDrop s 8
  else s

/-- The country-exposure tag pipeline: concatenate
`RiskCountryExposure` and `Country` with a comma, split on commas, trim,
drop empties (`filter(Boolean)`), strip the tier marker, upper-case. -/
def exposureCodes (c : Client) : List String :=
  let exposure := (c.RiskCountryExposure.getD "") ++ "," ++ (c.Country.getD "")
  (((splitComma exposure).map jsTrim).filter (fun s => s ≠ "")).map
    (fun tag => asciiUpper (stripRiskTag tag))

/-- `(highExp, medExp)`: occurrences of high-risk and of medium-risk
country codes among the exposure tags. -/
def exposureCounts (c : Client) : Nat × Nat :=
  ((exposureCodes c).filter (fun c2 => HIGH_RISK_COUNTRIES.contains c2) |>.length,
   (exposureCodes c).filter (fun c2 => MED_RISK_COUNTRIES.contains c2) |>.length)

/-- The two country-exposure additions: +12 once when any high-risk tag
matched, +6 once when any medium-risk tag matched; each reason text
carries the full tag count. -/
def exposureRule (c : Client) : RulePart :=
  let n := exposureCounts c
  let hr : RulePart :=
    if 0 < n.1 then
      (12, ["Exposure to high-risk countries (" ++ toString n.1 ++ ") (+12)"])
    else (0, [])
  let mr : RulePart :=
    if 0 < n.2 then
      (6, ["Exposure to medium-risk countries (" ++ toString n.2 ++ ") (+6)"])
    else (0, [])
  (hr.1 + mr.1, hr.2 ++ mr.2)

def structuringRule (txList : List Txn) (now : JSDate) : RulePart :=
  let s := detectStructuring txList now
  if s.hit then
    (15, ["Structuring pattern: " ++ toString (s.maxRun.getD 0) ++
          "+ near-threshold cash deposits (+15)"])
  else (0, [])

def corridorsRule (txList : List Txn) (now : JSDate) : RulePart :=
  let c := detectCorridors txList now
  if c.hit then
    (12, ["High-risk corridors: " ++ toString c.total ++
          " intl to RU/CN/HK/AE/IN/IR (+12)"])
  else (0, [])

/-- `LARGE_DOMESTIC.toLocaleString()` renders as `"100,000"`. -/
def largeDomesticRule (txList : List Txn) (now : JSDate) : RulePart :=
  let d := detectLargeDomestic txList now
  if d.hit then (8, ["Large domestic transfer(s) ≥ 100,000 (+8)"]) else (0, [])

def eddRule (c : Client) : RulePart :=
  if containsStr (jsUpper c.KYCStatus) "ENHANCED" then
    (5, ["EDD in place (+5)"])
  else (0, [])

/-- `score >= 30 ? "High" : score >= 15 ? "Medium" : "Low"`. -/
def bandOf (score : Int) : String :=
  if 30 ≤ score then "High" else if 15 ≤ score then "Medium" else "Low"

structure ScoreResult where
  score : Int
  band : String
  reasons : List String
deriving DecidableEq, Repr

/-- `scoreClient(client, txList, now)`: the additive pass in source order
(the sequential `score += p; reasons.push(r)` accumulation is the sum of
the per-rule contributions and the concatenation of their reasons, in the
fixed evaluation order), then the band from the final score. -/
def scoreClient (c : Client) (txList : List Txn) (now : JSDate) : ScoreResult :=
  let parts : List RulePart :=
    [pepRule c, sanctionsRule c, kycStaleRule c now, residencyRule c,
     remittanceRule c, propertyRule c, channelRule c, exposureRule c,
     structuringRule txList now, corridorsRule txList now,
     largeDomesticRule txList now, eddRule c]
  let score := (parts.map Prod.fst).sum
  let reasons := (parts.map Prod.snd).flatten
  { score := score, band := bandOf score, reasons := reasons }

-- ---------------------------------------------------------------------------
-- normalizeRow and the two synonym tables
-- ---------------------------------------------------------------------------

/-- A raw cell value: JS string or number (the two value shapes CSV rows
carry through `normalizeRow`, which trims strings and passes other values
through). -/
inductive JSVal where
  | str (s : String)
  | num (q : Rat)
deriving DecidableEq, Repr

/-- `typeof v === "string" ? v.trim() : v`. -/
def trimVal : JSVal → JSVal
  | .str s => .str (jsTrim s)
  | v => v

/-- A JS object as an ordered association list with unique keys
(`Object.entries` order). -/
abbrev Row := List (String × JSVal)

/-- JS `Map.prototype.get` over a table built from object entries. -/
def mapGet (m : List (String × String)) (k : String) : Option String :=
  (m.find? (fun p => p.1 = k)).map Prod.snd

/-- `out[canon] = v`: replace in place if the key exists, else append. -/
def setKey (out : Row) (k : String) (v : JSVal) : Row :=
  if out.any (fun p => p.1 = k) then
    out.map (fun p => if p.1 = k then (k, v) else p)
  else out ++ [(k, v)]

/-- The key lookup of `normalizeRow`: `keymap.get(k.toLowerCase().trim())`. -/
def normKey (k : String) : String := jsTrim (asciiLower k)

/-- `normalizeRow(row, keymap)` from the source. -/
def normalizeRow (row : Row) (keymap : List (String × String)) : Row :=
  row.foldl
    (fun out kv =>
      match mapGet keymap (normKey kv.1) with
      | some canon => setKey out canon (trimVal kv.2)
      | none => out)
    []

/-- `CLIENT_KEYMAP` from the source. -/
def CLIENT_KEYMAP : List (String × String) :=
  [("clientid", "ClientID"), ("client_id", "ClientID"), ("id", "ClientID"),
   ("name", "Name"), ("entitytype", "EntityType"), ("type", "EntityType"),
   ("country", "Country"), ("state", "State"), ("suburb", "Suburb"),
   ("postcode", "Postcode"), ("residencystatus", "ResidencyStatus"),
   ("pep", "PEP"), ("kycstatus", "KYCStatus"), ("onboarddate", "OnboardDate"),
   ("lastkycreview", "LastKYCReview"), ("deliverychannel", "DeliveryChannel"),
   ("channel", "DeliveryChannel"), ("servicesused", "ServicesUsed"),
   ("services", "ServicesUsed"), ("industry", "Industry"),
   ("annualturnoveraud", "AnnualTurnoverAUD"), ("sourceoffunds", "SourceOfFunds"),
   ("sanctionsmatch", "SanctionsMatch"),
   ("riskcountryexposure", "RiskCountryExposure")]

/-- `TX_KEYMAP` from the source. -/
def TX_KEYMAP : List (String × String) :=
  [("txnid", "TxnID"), ("id", "TxnID"), ("clientid", "ClientID"),
   ("client_id", "ClientID"), ("client", "ClientName"),
   ("client_name", "ClientName"), ("name", "ClientName"), ("date", "Date"),
   ("txn_date", "Date"), ("timestamp", "Date"), ("amount", "Amount"),
   ("aud_amount", "Amount"), ("value", "Amount"), ("currency", "Currency"),
   ("type", "Type"), ("channel", "Channel"), ("method", "Channel"),
   ("location", "Location"), ("counterpartyname", "CounterpartyName"),
   ("counterparty_country", "CounterpartyCountry"), ("notes", "Notes")]

-- ---------------------------------------------------------------------------
-- Concrete data used by the boundary scenarios
-- ---------------------------------------------------------------------------

/-- Reference instant 2024-06-20T00:00:00Z. -/
def refInstant : JSDate := ⟨2024, 5, 1718841600000⟩

/-- 2024-06-01, -06, -11, -16 (5-day spacing) and 2020-01-01. -/
def dJun1 : JSDate := ⟨2024, 5, 1717200000000⟩
def dJun6 : JSDate := ⟨2024, 5, 1717632000000⟩
def dJun11 : JSDate := ⟨2024, 5, 1718064000000⟩
def dJun16 : JSDate := ⟨2024, 5, 1718496000000⟩
def dJan20 : JSDate := ⟨2020, 0, 1577836800000⟩

/-- 2025-06-01, strictly after `refInstant`. -/
def dFuture : JSDate := ⟨2025, 5, 1748736000000⟩

/-- A near-threshold cash deposit of 9700 on the given date. -/
def deposit9700 (d : JSDate) : Txn :=
  { TxType := some "Cash Deposit", Date := some d, Amount := some 9700 }

/-- An international transfer to RU of the given amount on the given date. -/
def intlToRU (d : JSDate) (amt : Rat) : Txn :=
  { TxType := some "International transfer", Date := some d, Amount := some amt,
    CounterpartyCountry := some "RU" }

/-- A future-dated large domestic transfer. -/
def futureDomestic : Txn :=
  { TxType := some "Domestic transfer", Date := some dFuture, Amount := some 150000 }

/-- The scenario client of testable property 6. -/
def tagClient : Client :=
  { RiskCountryExposure := some "HighRisk:RU, MedRisk:CN", Country := some "AU" }

/-- Same tag presence per tier as `tagClient`, but two tags in each tier. -/
def tagClientDoubled : Client :=
  { RiskCountryExposure := some "HighRisk:RU, HighRisk:IR, MedRisk:CN, MedRisk:HK" }

/-- A client whose KYC-history strings are both unusable: `LastKYCReview`
is a non-empty unparseable string, `OnboardDate` is missing. -/
def noKycClient : Client := { LastKYCReview := .bad, OnboardDate := .empty }

/-- A client record with every optional field missing. -/
def emptyClient : Client := {}

-- ---------------------------------------------------------------------------
-- Helper lemmas: dropWhile / trim
-- ---------------------------------------------------------------------------

lemma dropWhile_dropWhile (p : α → Bool) (l : List α) :
    (l.dropWhile p).dropWhile p = l.dropWhile p := by
  induction l with
  | nil => rfl
  | cons a t ih =>
    by_cases h : p a
    · simpa [List.dropWhile, h] using ih
    · simp [List.dropWhile, h]

lemma dropWhile_append_last (p : α → Bool) (a : α) (h : p a = false)
    (l : List α) : (l ++ [a]).dropWhile p = l.dropWhile p ++ [a] := by
  induction l with
  | nil => simp [List.dropWhile, h]
  | cons b t ih =>
    by_cases hb : p b
    · simp [List.dropWhile, hb, ih]
    · simp [List.dropWhile, hb]

lemma trimR_trimR (l : List Char) : trimR (trimR l) = trimR l := by
  unfold trimR
  rw [List.reverse_reverse, dropWhile_dropWhile]

lemma trimL_trimR_trimL (l : List Char) :
    trimL (trimR (trimL l)) = trimR (trimL l) := by
  unfold trimL trimR
  cases h : l.dropWhile wsChar with
  | nil => simp
  | cons a t =>
    have ha : wsChar a = false := by
      have := List.head?_dropWhile_not wsChar l
      rw [h] at this
      simpa using this
    rw [List.reverse_cons, dropWhile_append_last wsChar a ha,
      List.reverse_append]
    simp [List.dropWhile, ha]

lemma jsTrim_idem (s : String) : jsTrim (jsTrim s) = jsTrim s := by
  unfold jsTrim
  have h1 : trimL (trimR (trimL s.data)) = trimR (trimL s.data) :=
    trimL_trimR_trimL s.data
  simp [h1, trimR_trimR]

lemma trimVal_idem (v : JSVal) : trimVal (trimVal v) = trimVal v := by
  cases v with
  | str s => simp [trimVal, jsTrim_idem]
  | num q => rfl

-- ---------------------------------------------------------------------------
-- Helper lemmas: sortByMs membership
-- ---------------------------------------------------------------------------

lemma mem_insertByMs {x a : CashRec} {l : List CashRec} :
    x ∈ insertByMs a l ↔ x = a ∨ x ∈ l := by
  induction l with
  | nil => simp [insertByMs]
  | cons b t ih =>
    by_cases h : msKey a < msKey b
    · simp [insertByMs, h]
    · simp [insertByMs, h, ih]
      tauto

lemma mem_sortByMs_aux {x : CashRec} (l acc : List CashRec) :
    x ∈ l.foldl (fun acc y => insertByMs y acc) acc ↔ x ∈ acc ∨ x ∈ l := by
  induction l generalizing acc with
  | nil => simp
  | cons a t ih =>
    rw [List.foldl_cons, ih]
    rw [mem_insertByMs]
    simp
    tauto

lemma mem_sortByMs {x : CashRec} {l : List CashRec} :
    x ∈ sortByMs l ↔ x ∈ l := by
  unfold sortByMs
  rw [mem_sortByMs_aux]
  simp

-- ---------------------------------------------------------------------------
-- Helper lemmas: chop / maxNat
-- ---------------------------------------------------------------------------

lemma chop_ne_nil (close : α → α → Bool) (a : α) (l : List α) :
    chop close (a :: l) ≠ [] := by
  cases l with
  | nil => simp [chop]
  | cons b t =>
    rw [chop]
    cases h : chop close (b :: t) with
    | nil => simp
    | cons r rs =>
      by_cases hc : close a b <;> simp [hc]

lemma chop_run_length_le (close : α → α → Bool) (l : List α) :
    ∀ r ∈ chop close l, r.length ≤ l.length := by
  induction l with
  | nil => simp [chop]
  | cons a t ih =>
    cases t with
    | nil =>
      intro r hr
      simp [chop] at hr
      simp [hr]
    | cons b t2 =>
      intro r hr
      rw [chop] at hr
      cases h : chop close (b :: t2) with
      | nil => exact absurd h (chop_ne_nil close b t2)
      | cons r0 rs =>
        rw [h] at hr
        by_cases hc : close a b
        · simp [hc] at hr
          rcases hr with hr | hr
          · have := ih r0 (by rw [h]; exact List.mem_cons_self r0 rs)
            subst hr
            simpa using Nat.add_le_add_right this 1
          · have := ih r (by rw [h]; exact List.mem_cons_of_mem r0 hr)
            exact Nat.le_succ_of_le this
        · simp [hc] at hr
          rcases hr with hr | hr | hr
          · subst hr; simp
          · have := ih r0 (by rw [h]; exact List.mem_cons_self r0 rs)
            subst hr
            exact Nat.le_succ_of_le this
          · have := ih r (by rw [h]; exact List.mem_cons_of_mem r0 hr)
            exact Nat.le_succ_of_le this

lemma foldl_max_le (b : Nat) (l : List Nat) :
    ∀ init : Nat, init ≤ b → (∀ x ∈ l, x ≤ b) → l.foldl max init ≤ b := by
  induction l with
  | nil => intro init hi _; simpa using hi
  | cons a t ih =>
    intro init hi hall
    rw [List.foldl_cons]
    exact ih (max init a) (max_le hi (hall a (List.mem_cons_self a t)))
      (fun x hx => hall x (List.mem_cons_of_mem a hx))

lemma maxNat_le {l : List Nat} {b : Nat} (h : ∀ x ∈ l, x ≤ b) :
    maxNat l ≤ b :=
  foldl_max_le b l 0 (Nat.zero_le b) h

-- ---------------------------------------------------------------------------
-- Helper lemmas: normalizeRow on self-mapped canonical rows
-- ---------------------------------------------------------------------------

/-- One step of `normalizeRow`'s fold. -/
def normStep (keymap : List (String × String)) (out : Row)
    (kv : String × JSVal) : Row :=
  match mapGet keymap (normKey kv.1) with
  | some canon => setKey out canon (trimVal kv.2)
  | none => out

lemma normalizeRow_eq_foldl (row : Row) (keymap : List (String × String)) :
    normalizeRow row keymap = row.foldl (normStep keymap) [] := rfl

lemma foldl_normStep_append (keymap : List (String × String)) (row : Row) :
    ∀ out : Row,
    (∀ kv ∈ row, mapGet keymap (normKey kv.1) = some kv.1) →
    (row.map Prod.fst).Nodup →
    (∀ kv ∈ row, ∀ p ∈ out, p.1 ≠ kv.1) →
    row.foldl (normStep keymap) out =
      out ++ row.map (fun kv => (kv.1, trimVal kv.2)) := by
  induction row with
  | nil => intro out _ _ _; simp
  | cons kv rest ih =>
    intro out hk hnd hdisj
    have hstep : normStep keymap out kv = out ++ [(kv.1, trimVal kv.2)] := by
      have hno : (out.any (fun p => p.1 = kv.1)) = false := by
        rw [List.any_eq_false]
        intro p hp
        simpa using hdisj kv (List.mem_cons_self kv rest) p hp
      simp [normStep, hk kv (List.mem_cons_self kv rest), setKey, hno]
    rw [List.foldl_cons, hstep]
    rw [ih (out ++ [(kv.1, trimVal kv.2)])
      (fun kv2 h2 => hk kv2 (List.mem_cons_of_mem kv h2))
      (by simpa using (List.nodup_cons.mp (by simpa using hnd)).2)
      ?_]
    · simp
    · intro kv2 h2 p hp
      rcases List.mem_append.mp hp with hp | hp
      · exact hdisj kv2 (List.mem_cons_of_mem kv h2) p hp
      · have hp1 : p.1 = kv.1 := by
          simp at hp
          rw [hp]
        rw [hp1]
        have hkvmem : kv.1 ∉ rest.map Prod.fst :=
          (List.nodup_cons.mp (by simpa using hnd)).1
        intro heq
        exact hkvmem (heq ▸ List.mem_map_of_mem Prod.fst h2)

lemma normalizeRow_canonical (keymap : List (String × String)) (row : Row)
    (hk : ∀ kv ∈ row, mapGet keymap (normKey kv.1) = some kv.1)
    (hnd : (row.map Prod.fst).Nodup) :
    normalizeRow row keymap = row.map (fun kv => (kv.1, trimVal kv.2)) := by
  rw [normalizeRow_eq_foldl]
  simpa using foldl_normStep_append keymap row [] hk hnd (by simp)

lemma normalizeRow_idem_of_selfmap (keymap : List (String × String)) (row : Row)
    (hk : ∀ kv ∈ row, mapGet keymap (normKey kv.1) = some kv.1)
    (hnd : (row.map Prod.fst).Nodup) :
    normalizeRow (normalizeRow row keymap) keymap = normalizeRow row keymap := by
  rw [normalizeRow_canonical keymap row hk hnd]
  have hk2 : ∀ kv ∈ row.map (fun kv => (kv.1, trimVal kv.2)),
      mapGet keymap (normKey kv.1) = some kv.1 := by
    intro kv hkv
    rcases List.mem_map.mp hkv with ⟨kv0, h0, heq⟩
    rw [← heq]
    exact hk kv0 h0
  have hnd2 : ((row.map (fun kv => (kv.1, trimVal kv.2))).map Prod.fst).Nodup := by
    rw [List.map_map]
    exact hnd
  rw [normalizeRow_canonical keymap _ hk2 hnd2]
  rw [List.map_map]
  apply List.map_congr_left
  intro kv _
  simp [trimVal_idem]

/-- Every canonical value of the table that is reachable through its own
case-normalized form maps back to itself.  Checked by evaluation for the two
concrete tables. -/
def selfCanon (km : List (String × String)) : Prop :=
  ∀ c ∈ km.map Prod.snd, (mapGet km (normKey c)).isSome = true →
    mapGet km (normKey c) = some c

lemma client_keymap_selfCanon : selfCanon CLIENT_KEYMAP := by
  unfold selfCanon
  decide

lemma tx_keymap_selfCanon : selfCanon TX_KEYMAP := by
  unfold selfCanon
  decide

-- ---------------------------------------------------------------------------
-- Claim theorems
-- ---------------------------------------------------------------------------

/-- Month rank of a date: `year*12 + month`.  For real calendar dates this
is monotone in the timestamp. -/
def monthKey (d : JSDate) : Int := d.year * 12 + d.month

/-- Claim C1 counterexample: for a client whose `LastKYCReview` is a
non-empty unparseable string and whose `OnboardDate` is missing — both
fields unusable as dates — `scoreClient` returns score 0 with an empty
reasons list: the +6 stale-KYC points are NOT added and no stale-KYC
reason is emitted, contradicting the claim that missing/unparseable KYC
history always triggers the penalty. -/
theorem scoreClient_noKyc_zero :
    scoreClient noKycClient [] refInstant = { score := 0, band := "Low", reasons := [] } ∧
    "KYC review stale (>24mo) (+6)" ∉ (scoreClient noKycClient [] refInstant).reasons := by
  constructor
  · decide
  · decide

/-- Claim C1 (amended): the stale-KYC rule is guarded by a null check on
`parseDate(LastKYCReview || OnboardDate)`.  The +6 with its stale reason
fires exactly when the combined field parses to a date more than
24 months before the reference instant: when the field fails to parse the
rule contributes nothing, and when it parses to a date at most 24 months
old the rule also contributes nothing — the three cases are exhaustive
over `(dateOr ...).parse`. -/
theorem kycStaleRule_null_guard :
    (∀ (c : Client) (now : JSDate),
      (dateOr c.LastKYCReview c.OnboardDate).parse = none →
      kycStaleRule c now = (0, [])) ∧
    (∀ (c : Client) (now d : JSDate),
      (dateOr c.LastKYCReview c.OnboardDate).parse = some d →
      (monthsAgo (some d) (some now)).gtInt 24 = true →
      kycStaleRule c now = (6, ["KYC review stale (>24mo) (+6)"])) ∧
    (∀ (c : Client) (now d : JSDate),
      (dateOr c.LastKYCReview c.OnboardDate).parse = some d →
      (monthsAgo (some d) (some now)).gtInt 24 = false →
      kycStaleRule c now = (0, [])) := by
  refine ⟨?_, ?_, ?_⟩
  · intro c now h
    simp [kycStaleRule, h]
  · intro c now d h hgt
    simp [kycStaleRule, h, hgt]
  · intro c now d h hgt
    simp [kycStaleRule, h, hgt]

/-- A client whose KYC review parses to 2020-01 (stale against the 2024-06
reference instant). -/
def staleKycClient : Client := { LastKYCReview := .ok dJan20 }

/-- A client whose KYC review parses to 2024-06 (fresh against the 2024-06
reference instant). -/
def freshKycClient : Client := { LastKYCReview := .ok dJun1 }

/-- Witness for the amended C1 theorem: one concrete client per case —
unparseable (no fire), parsed and stale (fire), parsed and fresh
(no fire). -/
theorem kycStaleRule_null_guard_witness :
    kycStaleRule noKycClient refInstant = (0, []) ∧
    kycStaleRule staleKycClient refInstant =
      (6, ["KYC review stale (>24mo) (+6)"]) ∧
    kycStaleRule freshKycClient refInstant = (0, []) :=
  ⟨kycStaleRule_null_guard.1 noKycClient refInstant (by decide),
   kycStaleRule_null_guard.2.1 staleKycClient refInstant dJan20
     (by decide) (by decide),
   kycStaleRule_null_guard.2.2 freshKycClient refInstant dJun1
     (by decide) (by decide)⟩

/-- Claim C3: the structuring amount filter is the half-open interval
`[9600, 10000)`: an amount of exactly 10000 never passes the filter, an
amount of exactly 9600 passes whenever the record's date is valid and
in-window, and every record of the qualifying `cash` list satisfies both
bounds. -/
theorem structuring_amount_boundary :
    (∀ (now : JSDate) (p : CashRec), p.2 = some 10000 →
      structWindowPred now p = false) ∧
    (∀ (now d : JSDate),
      (monthsAgo (some d) (some now)).leInt LOOKBACK_MONTHS = true →
      structWindowPred now (some d, some 9600) = true) ∧
    (∀ (txList : List Txn) (now : JSDate) (p : CashRec),
      p ∈ structCash txList now →
      amtGe p.2 CASH_STRUCTURING_MIN = true ∧
      amtLt p.2 CASH_STRUCTURING_MAX = true) := by
  refine ⟨?_, ?_, ?_⟩
  · intro now p h
    simp [structWindowPred, h, amtLt, CASH_STRUCTURING_MAX]
  · intro now d h
    simp [structWindowPred, h, amtGe, amtLt, CASH_STRUCTURING_MIN,
      CASH_STRUCTURING_MAX]
    norm_num
  · intro txList now p hp
    unfold structCash at hp
    rw [mem_sortByMs] at hp
    have hpred := List.of_mem_filter hp
    simp only [structWindowPred, Bool.and_eq_true] at hpred
    exact ⟨hpred.1.2, hpred.2⟩

/-- Witness for C3 at concrete amounts and dates. -/
theorem structuring_amount_boundary_witness :
    structWindowPred refInstant (some dJun1, some 10000) = false ∧
    structWindowPred refInstant (some dJun1, some 9600) = true :=
  ⟨structuring_amount_boundary.1 refInstant (some dJun1, some 10000) rfl,
   structuring_amount_boundary.2.1 refInstant dJun1 (by decide)⟩

/-- Claim C5: `monthsAgo` computes the calendar-month difference
`(year(b)-year(a))*12 + (month(b)-month(a))` on valid dates (day-of-month
ignored: it reads only `year` and `month`), returns the `Infinity`
sentinel when either side is invalid, the sentinel never satisfies the
18-month lookback comparison, and consequently a record with an invalid
date fails the in-window filter of all three detectors. -/
theorem monthsAgo_sentinel_spec :
    (∀ a b : JSDate, monthsAgo (some a) (some b) =
      ExtInt.fin ((b.year - a.year) * 12 + (b.month - a.month))) ∧
    (∀ x : Option JSDate,
      monthsAgo none x = ExtInt.inf ∧ monthsAgo x none = ExtInt.inf) ∧
    ExtInt.leInt ExtInt.inf LOOKBACK_MONTHS = false ∧
    (∀ (now : JSDate) (p : CashRec), p.1 = none →
      structWindowPred now p = false) ∧
    (∀ (now : JSDate) (v : CorridorView), v.d = none →
      corridorWindowPred now v = false) ∧
    (∀ (now : JSDate) (p : DomRec), p.2 = none →
      domWindowPred now p = false) := by
  refine ⟨?_, ?_, rfl, ?_, ?_, ?_⟩
  · intro a b; rfl
  · intro x
    exact ⟨rfl, by cases x <;> rfl⟩
  · intro now p h
    simp [structWindowPred, h]
  · intro now v h
    simp [corridorWindowPred, h]
  · intro now p h
    simp [domWindowPred, h]

/-- Witness for C5 at a concrete invalid-date record. -/
theorem monthsAgo_sentinel_spec_witness :
    structWindowPred refInstant (none, some 9700) = false ∧
    domWindowPred refInstant (some 150000, none) = false :=
  ⟨monthsAgo_sentinel_spec.2.2.2.1 refInstant (none, some 9700) rfl,
   monthsAgo_sentinel_spec.2.2.2.2.2 refInstant (some 150000, none) rfl⟩

/-- Rank of a band string under the ordering High > Medium > Low. -/
def bandRank (b : String) : Nat :=
  if b = "High" then 2 else if b = "Medium" then 1 else 0

/-- Claim C6: the band of a score result is a function of the final
accumulated score alone (`band = bandOf score`, computed once after the
full additive pass), with High iff `score ≥ 30`, Medium iff
`15 ≤ score < 30`, Low otherwise; and `bandOf` is monotone in the score
under High > Medium > Low. -/
theorem band_from_final_score_monotone :
    (∀ (c : Client) (txList : List Txn) (now : JSDate),
      (scoreClient c txList now).band = bandOf (scoreClient c txList now).score) ∧
    (∀ s : Int, (bandOf s = "High" ↔ 30 ≤ s) ∧
      (bandOf s = "Medium" ↔ 15 ≤ s ∧ s < 30) ∧
      (bandOf s = "Low" ↔ s < 15)) ∧
    (∀ sA sB : Int, sB < sA → bandRank (bandOf sB) ≤ bandRank (bandOf sA)) := by
  refine ⟨fun c txList now => rfl, ?_, ?_⟩
  · intro s
    unfold bandOf
    by_cases h30 : (30:Int) ≤ s
    · simp [h30]
      omega
    · by_cases h15 : (15:Int) ≤ s
      · simp [h30, h15]
        omega
      · simp [h30, h15]
        omega
  · intro sA sB h
    unfold bandOf
    by_cases hB30 : (30:Int) ≤ sB
    · have hA30 : (30:Int) ≤ sA := by omega
      simp [hB30, hA30]
    · by_cases hB15 : (15:Int) ≤ sB
      · have hA15 : (15:Int) ≤ sA := by omega
        by_cases hA30 : (30:Int) ≤ sA <;>
          simp [hB30, hB15, hA30, hA15, bandRank]
      · simp only [hB30, hB15, if_false]
        by_cases hA30 : (30:Int) ≤ sA <;> by_cases hA15 : (15:Int) ≤ sA <;>
          simp [hA30, hA15, bandRank]

/-- Witness for C6 at concrete scores. -/
theorem band_from_final_score_monotone_witness :
    bandRank (bandOf 10) ≤ bandRank (bandOf 31) :=
  band_from_final_score_monotone.2.2 31 10 (by decide)

/-- Claim C10: the 18-month lookback filter is one-sided.  For a parsed
date at or after the reference instant in calendar-month order (which
holds in particular for any real date strictly after the instant),
`monthsAgo(date, now)` is ≤ 0, hence ≤ 18, so the record passes the
in-window filter of all three detectors; a future-dated large domestic
transfer produces a hit. -/
theorem future_dated_passes_window :
    (∀ d now : JSDate, now.ms < d.ms → monthKey now ≤ monthKey d →
      (monthsAgo (some d) (some now)).leInt LOOKBACK_MONTHS = true) ∧
    (∀ (t : Txn) (d now : JSDate), t.Date = some d → now.ms < d.ms →
      monthKey now ≤ monthKey d → typeHas t "domestic" = true →
      amtGe t.Amount LARGE_DOMESTIC = true →
      (detectLargeDomestic [t] now).hit = true) ∧
    (∀ (t : Txn) (d now : JSDate), t.Date = some d → now.ms < d.ms →
      monthKey now ≤ monthKey d →
      structWindowPred now (t.Date, t.Amount) =
        (amtGe t.Amount CASH_STRUCTURING_MIN &&
         amtLt t.Amount CASH_STRUCTURING_MAX)) ∧
    (∀ (t : Txn) (d now : JSDate), t.Date = some d → now.ms < d.ms →
      monthKey now ≤ monthKey d →
      corridorWindowPred now (corridorView t) = true) := by
  have key : ∀ d now : JSDate, monthKey now ≤ monthKey d →
      (monthsAgo (some d) (some now)).leInt LOOKBACK_MONTHS = true := by
    intro d now hmk
    unfold monthKey at hmk
    simp only [monthsAgo, ExtInt.leInt, LOOKBACK_MONTHS, decide_eq_true_eq]
    omega
  refine ⟨fun d now _ hmk => key d now hmk, ?_, ?_, ?_⟩
  · intro t d now hd _ hmk hty hamt
    simp [detectLargeDomestic, hty, domWindowPred, hd, key d now hmk, hamt]
  · intro t d now hd _ hmk
    simp [structWindowPred, hd, key d now hmk]
  · intro t d now hd _ hmk
    simp [corridorWindowPred, corridorView, hd, key d now hmk]

/-- Witness for C10: a transfer dated 2025-06-01 against the 2024-06-20
reference instant triggers the large-domestic detector. -/
theorem future_dated_passes_window_witness :
    (detectLargeDomestic [futureDomestic] refInstant).hit = true :=
  future_dated_passes_window.2.1 futureDomestic dFuture refInstant rfl
    (by decide) (by decide) (by decide) (by decide)

/-- Claim C2: `detectStructuring` hits exactly when, over the sorted
in-window near-threshold cash-deposit list, the longest run with
successive gaps of at most 7 days has length ≥ 4 and the total
qualifying count is ≥ 4; three 9700-deposits 5 days apart do not trigger,
and a fourth at day 15 from the first triggers with `maxRun = 4`. -/
theorem structuring_hit_characterization :
    (∀ (txList : List Txn) (now : JSDate),
      (detectStructuring txList now).hit =
        (decide (4 ≤ maxNat ((chop structClose (structCash txList now)).map List.length)) &&
         decide (4 ≤ (structCash txList now).length))) ∧
    detectStructuring [deposit9700 dJun1, deposit9700 dJun6, deposit9700 dJun11]
        refInstant = { hit := false } ∧
    detectStructuring
        [deposit9700 dJun1, deposit9700 dJun6, deposit9700 dJun11, deposit9700 dJun16]
        refInstant = { hit := true, maxRun := some 4, count := some 4 } := by
  refine ⟨?_, by decide, by decide⟩
  intro txList now
  by_cases h : (structCash txList now).length < 4
  · have h4 : ¬ (4 ≤ (structCash txList now).length) := by omega
    simp [detectStructuring, h, h4]
  · have h4 : 4 ≤ (structCash txList now).length := by omega
    simp [detectStructuring, h, h4]

/-- Filter through a map: `filter p (map f l) = map f (filter (p ∘ f) l)`. -/
lemma filter_of_map (f : α → β) (p : β → Bool) (l : List α) :
    (l.map f).filter p = (l.filter (fun a => p (f a))).map f := by
  induction l with
  | nil => rfl
  | cons a t ih =>
    by_cases h : p (f a) <;> simp [h, ih]

/-- Two successive filters fuse into one conjunctive filter. -/
lemma filter_filter_bool (p q : α → Bool) (l : List α) :
    (l.filter p).filter q = l.filter (fun a => p a && q a) := by
  induction l with
  | nil => rfl
  | cons a t ih =>
    by_cases hp : p a <;> by_cases hq : q a <;> simp [hp, hq, ih]

/-- Claim-side predicate of the corridor detector: the transaction's type
mentions "international", its date is valid and in-window, and its
upper-cased counterparty country is in the high-risk corridor set. -/
def corridorQual (now : JSDate) (t : Txn) : Bool :=
  typeHas t "international" && corridorWindowPred now (corridorView t) &&
    HIGH_RISK_CORRIDORS.contains (jsUpper t.CounterpartyCountry)

/-- A qualifying corridor transaction of amount ≥ 20000. -/
def corridorBigQual (now : JSDate) (t : Txn) : Bool :=
  corridorQual now t && amtGe t.Amount 20000

/-- The corridor detector's chained filters count exactly the transactions
satisfying the fused claim-side predicates. -/
lemma detectCorridors_counts (txList : List Txn) (now : JSDate) :
    detectCorridors txList now =
      { hit := decide (2 ≤ (txList.filter (corridorQual now)).length) &&
               decide (1 ≤ (txList.filter (corridorBigQual now)).length),
        total := (txList.filter (corridorQual now)).length,
        big := (txList.filter (corridorBigQual now)).length } := by
  have hrisky :
      (((txList.filter (fun t => typeHas t "international")).map
          corridorView).filter (corridorWindowPred now)).filter
        (fun v => HIGH_RISK_CORRIDORS.contains v.country) =
      (txList.filter (corridorQual now)).map corridorView := by
    rw [filter_of_map, filter_filter_bool, filter_of_map, filter_filter_bool]
    rfl
  have hbig :
      ((txList.filter (corridorQual now)).map corridorView).filter
        (fun v => amtGe v.amt 20000) =
      (txList.filter (corridorBigQual now)).map corridorView := by
    rw [filter_of_map, filter_filter_bool]
    rfl
  simp only [detectCorridors, hrisky, hbig, List.length_map]

/-- Claim C4: `detectCorridors` hits exactly when at least 2 in-window
international transactions target a high-risk corridor country and at
least 1 of them has amount ≥ 20000; amounts 5000 and 25000 both
in-window hit with `total = 2`, `big = 1`; with only one of the two
in-window there is no hit. -/
theorem corridors_hit_characterization :
    (∀ (txList : List Txn) (now : JSDate),
      (detectCorridors txList now).hit = true ↔
        2 ≤ (txList.filter (corridorQual now)).length ∧
        1 ≤ (txList.filter (corridorBigQual now)).length) ∧
    detectCorridors [intlToRU dJun1 5000, intlToRU dJun6 25000] refInstant =
      { hit := true, total := 2, big := 1 } ∧
    detectCorridors [intlToRU dJan20 5000, intlToRU dJun6 25000] refInstant =
      { hit := false, total := 1, big := 1 } := by
  refine ⟨?_, by decide, by decide⟩
  intro txList now
  rw [detectCorridors_counts]
  simp

/-- Claim C8: the country-exposure rule counts every matching tag of the
comma-joined, trimmed, tier-marker-stripped, upper-cased exposure field,
but adds +12 at most once (any high-risk match) and +6 at most once (any
medium-risk match): the added points are a function of per-tier presence
only, are at most 18, and the scenario client with
`RiskCountryExposure = "HighRisk:RU, MedRisk:CN"`, `Country = "AU"` gains
exactly 18 points with both counts reported in the reasons. -/
theorem exposure_once_per_tier :
    (∀ c : Client, (exposureRule c).1 =
      (if 0 < (exposureCounts c).1 then 12 else 0) +
      (if 0 < (exposureCounts c).2 then 6 else 0)) ∧
    (∀ c : Client, (exposureRule c).1 ≤ 18) ∧
    (∀ c c' : Client,
      (0 < (exposureCounts c).1 ↔ 0 < (exposureCounts c').1) →
      (0 < (exposureCounts c).2 ↔ 0 < (exposureCounts c').2) →
      (exposureRule c).1 = (exposureRule c').1) ∧
    exposureRule tagClient =
      (18, ["Exposure to high-risk countries (1) (+12)",
            "Exposure to medium-risk countries (1) (+6)"]) := by
  have hformula : ∀ c : Client, (exposureRule c).1 =
      (if 0 < (exposureCounts c).1 then 12 else 0) +
      (if 0 < (exposureCounts c).2 then 6 else 0) := by
    intro c
    by_cases h1 : 0 < (exposureCounts c).1 <;>
      by_cases h2 : 0 < (exposureCounts c).2 <;>
        simp [exposureRule, h1, h2]
  refine ⟨hformula, ?_, ?_, by decide⟩
  · intro c
    rw [hformula c]
    split_ifs <;> omega
  · intro c c' hh hm
    rw [hformula c, hformula c']
    by_cases h1 : 0 < (exposureCounts c).1
    · have h1' : 0 < (exposureCounts c').1 := hh.mp h1
      by_cases h2 : 0 < (exposureCounts c).2
      · have h2' : 0 < (exposureCounts c').2 := hm.mp h2
        simp [h1, h2, h1', h2']
      · have h2' : ¬ 0 < (exposureCounts c').2 := fun hx => h2 (hm.mpr hx)
        simp [h1, h2, h1', h2']
    · have h1' : ¬ 0 < (exposureCounts c').1 := fun hx => h1 (hh.mpr hx)
      by_cases h2 : 0 < (exposureCounts c).2
      · have h2' : 0 < (exposureCounts c').2 := hm.mp h2
        simp [h1, h2, h1', h2']
      · have h2' : ¬ 0 < (exposureCounts c').2 := fun hx => h2 (hm.mpr hx)
        simp [h1, h2, h1', h2']

/-- Witness for C8: doubling the tags per tier leaves the added points
unchanged. -/
theorem exposure_once_per_tier_witness :
    (exposureRule tagClient).1 = (exposureRule tagClientDoubled).1 :=
  exposure_once_per_tier.2.2.1 tagClient tagClientDoubled (by decide) (by decide)

/-- The qualifying cash list is empty when every amount is `NaN`. -/
lemma structCash_of_nan (txList : List Txn) (now : JSDate)
    (h : ∀ t ∈ txList, t.Amount = none) : structCash txList now = [] := by
  unfold structCash
  have hnil : (((txList.filter (fun t => typeHas t "cash deposit")).map
      (fun t => (t.Date, t.Amount))).filter (structWindowPred now)) = [] := by
    rw [List.filter_eq_nil_iff]
    intro p hp
    rcases List.mem_map.mp hp with ⟨t, ht, rfl⟩
    have hamt := h t (List.mem_of_mem_filter ht)
    simp [structWindowPred, amtGe, hamt]
  rw [hnil]
  rfl

/-- Claim C9: the engine is total by construction (every function here is
a total Lean function over the degraded-value embedding), `NaN` amounts
compare false against every numeric threshold, so with every amount
malformed no detector fires, and the all-fields-missing client with such
transactions scores 0 with no reasons — rules simply do not fire. -/
theorem degraded_inputs_no_fire :
    (∀ q : Rat, amtGe none q = false ∧ amtLt none q = false) ∧
    (∀ (txList : List Txn) (now : JSDate), (∀ t ∈ txList, t.Amount = none) →
      detectStructuring txList now = { hit := false } ∧
      (detectCorridors txList now).hit = false ∧
      detectLargeDomestic txList now = { hit := false, count := 0 }) ∧
    (∀ (txList : List Txn) (now : JSDate), (∀ t ∈ txList, t.Amount = none) →
      scoreClient emptyClient txList now =
        { score := 0, band := "Low", reasons := [] }) := by
  have hdet : ∀ (txList : List Txn) (now : JSDate),
      (∀ t ∈ txList, t.Amount = none) →
      detectStructuring txList now = { hit := false } ∧
      (detectCorridors txList now).hit = false ∧
      detectLargeDomestic txList now = { hit := false, count := 0 } := by
    intro txList now h
    refine ⟨?_, ?_, ?_⟩
    · simp [detectStructuring, structCash_of_nan txList now h]
    · rw [detectCorridors_counts]
      have hbig : txList.filter (corridorBigQual now) = [] := by
        rw [List.filter_eq_nil_iff]
        intro t ht
        simp [corridorBigQual, amtGe, h t ht]
      simp [hbig]
    · have hdom : (((txList.filter (fun t => typeHas t "domestic")).map
          (fun t => (t.Amount, t.Date))).filter (domWindowPred now)) = [] := by
        rw [List.filter_eq_nil_iff]
        intro p hp
        rcases List.mem_map.mp hp with ⟨t, ht, rfl⟩
        simp [domWindowPred, amtGe, h t (List.mem_of_mem_filter ht)]
      simp [detectLargeDomestic, hdom]
  refine ⟨fun q => ⟨rfl, rfl⟩, hdet, ?_⟩
  intro txList now h
  obtain ⟨hs, hc, hd⟩ := hdet txList now h
  have h1 : pepRule emptyClient = (0, []) := by decide
  have h2 : sanctionsRule emptyClient = (0, []) := by decide
  have h3 : kycStaleRule emptyClient now = (0, []) := by
    simp [kycStaleRule, emptyClient, dateOr, DateStr.truthy, DateStr.parse]
  have h4 : residencyRule emptyClient = (0, []) := by decide
  have h5 : remittanceRule emptyClient = (0, []) := by decide
  have h6 : propertyRule emptyClient = (0, []) := by decide
  have h7 : channelRule emptyClient = (0, []) := by decide
  have h8 : exposureRule emptyClient = (0, []) := by decide
  have h9 : structuringRule txList now = (0, []) := by simp [structuringRule, hs]
  have h10 : corridorsRule txList now = (0, []) := by simp [corridorsRule, hc]
  have h11 : largeDomesticRule txList now = (0, []) := by
    simp [largeDomesticRule, hd]
  have h12 : eddRule emptyClient = (0, []) := by decide
  have hband : bandOf 0 = "Low" := by decide
  simp [scoreClient, h1, h2, h3, h4, h5, h6, h7, h8, h9, h10, h11, h12, hband]

/-- Witness for C9 at a malformed-amount cash-deposit transaction. -/
theorem degraded_inputs_no_fire_witness :
    scoreClient emptyClient
      [{ TxType := some "cash deposit", Date := some dJun1 }] refInstant =
      { score := 0, band := "Low", reasons := [] } :=
  degraded_inputs_no_fire.2.2
    [{ TxType := some "cash deposit", Date := some dJun1 }] refInstant
    (by decide)

/-- Claim C7: `normalizeRow` is idempotent on rows whose keys are exactly
canonical field names that also appear (case-insensitively, after the
lookup's own case-normalization) as keys of the synonym table — for both
the client table and the transaction table. -/
theorem normalizeRow_idem_canonical :
    (∀ row : Row, (row.map Prod.fst).Nodup →
      (∀ kv ∈ row, kv.1 ∈ CLIENT_KEYMAP.map Prod.snd ∧
        (mapGet CLIENT_KEYMAP (normKey kv.1)).isSome = true) →
      normalizeRow (normalizeRow row CLIENT_KEYMAP) CLIENT_KEYMAP =
        normalizeRow row CLIENT_KEYMAP) ∧
    (∀ row : Row, (row.map Prod.fst).Nodup →
      (∀ kv ∈ row, kv.1 ∈ TX_KEYMAP.map Prod.snd ∧
        (mapGet TX_KEYMAP (normKey kv.1)).isSome = true) →
      normalizeRow (normalizeRow row TX_KEYMAP) TX_KEYMAP =
        normalizeRow row TX_KEYMAP) := by
  constructor
  · intro row hnd hk
    exact normalizeRow_idem_of_selfmap CLIENT_KEYMAP row
      (fun kv hkv => client_keymap_selfCanon kv.1 (hk kv hkv).1 (hk kv hkv).2) hnd
  · intro row hnd hk
    exact normalizeRow_idem_of_selfmap TX_KEYMAP row
      (fun kv hkv => tx_keymap_selfCanon kv.1 (hk kv hkv).1 (hk kv hkv).2) hnd

/-- Witness for C7 at a concrete canonical client row. -/
theorem normalizeRow_idem_canonical_witness :
    normalizeRow
        (normalizeRow [("ClientID", JSVal.str "C1"), ("Name", JSVal.str " Ann ")]
          CLIENT_KEYMAP) CLIENT_KEYMAP =
      normalizeRow [("ClientID", JSVal.str "C1"), ("Name", JSVal.str " Ann ")]
        CLIENT_KEYMAP :=
  normalizeRow_idem_canonical.1
    [("ClientID", JSVal.str "C1"), ("Name", JSVal.str " Ann ")]
    (by decide) (by decide)
